import Mathlib

/-!
A shallow embedding of the `Container` dependency-injection class of
elysia-di (`src/container.ts`) and a verification of its registration,
resolution, lifecycle and scope semantics.

JavaScript values are modelled by `JSVal`; object identity is an
allocation address.  Producer (factory) functions are modelled by the
effects the container can observe: returning a fixed value, allocating
a fresh object, or throwing.  The factory closures that `createScope`
installs for Singleton entries (`() => parent.resolve(identifier)`)
are modelled by `FactoryCode.delegate`.  A `World` carries every
container created so far (so that delegation across containers is
expressible), an allocation counter, and a ghost counter of producer
invocations used to state "the producer ran n times".
-/

namespace ElysiaDI

/-- A JavaScript runtime value.  `obj` carries an allocation address:
two objects are the same instance iff their addresses agree. -/
inductive JSVal where
  | undef
  | jsNull
  | bool (b : Bool)
  | num (n : Int)
  | str (s : String)
  | obj (addr : Nat)
deriving DecidableEq, Repr

/-- JavaScript truthiness, as tested by `if (!registration.instance)`. -/
def JSVal.truthy : JSVal → Bool
  | .undef => false
  | .jsNull => false
  | .bool b => b
  | .num n => n != 0
  | .str s => s != ""
  | .obj _ => true

/-- `ServiceIdentifier = string | symbol | Class`.  Symbols and class
constructors are identity-keyed; the `id` field models that identity
(two symbols with the same description are distinct keys). -/
inductive ServiceIdentifier where
  | str (s : String)
  | sym (id : Nat) (description : String)
  | cls (id : Nat) (name : String)
deriving DecidableEq, Repr

/-- `String(identifier)`, as interpolated into the error message of
`resolve` for a missing registration. -/
def ServiceIdentifier.toStr : ServiceIdentifier → String
  | .str s => s
  | .sym _ d => "Symbol(" ++ d ++ ")"
  | .cls _ n => "class " ++ n

/-- The `Lifecycle` enum. -/
inductive Lifecycle where
  | Transient
  | Singleton
  | Scoped
deriving DecidableEq, Repr

/-- A user-supplied factory function `(container) => T`, modelled by the
effects observable through the container: produce a fixed value, produce
a freshly allocated object, or throw. -/
inductive Producer where
  | const (v : JSVal)
  | alloc
  | throwE (e : JSVal)
deriving DecidableEq, Repr

/-- The code of a registration's `factory` field: either a user producer,
or the closure `() => parent.resolve(identifier)` that `createScope`
installs for Singleton entries. -/
inductive FactoryCode where
  | prod (p : Producer)
  | delegate (parentCid : Nat) (identifier : ServiceIdentifier)
deriving DecidableEq, Repr

/-- `Registration { factory, lifecycle, instance?: T }`.  The optional
`instance` field reads as `undefined` while unset, which is exactly how
the source tests it (`!registration.instance` is a truthiness test), so
it is modelled as a `JSVal` defaulting to `undef`. -/
structure Registration where
  factory : FactoryCode
  lifecycle : Lifecycle
  instance_ : JSVal
deriving DecidableEq, Repr

/-- A JavaScript `Map`, as an insertion-ordered association list with
no duplicate keys (`set` on an existing key replaces in place). -/
abbrev JsMap (α : Type) := List (ServiceIdentifier × α)

def mapGet {α : Type} : JsMap α → ServiceIdentifier → Option α
  | [], _ => none
  | (k, v) :: rest, key => if k = key then some v else mapGet rest key

def mapSet {α : Type} : JsMap α → ServiceIdentifier → α → JsMap α
  | [], key, v => [(key, v)]
  | (k, v0) :: rest, key, v =>
      if k = key then (k, v) :: rest else (k, v0) :: mapSet rest key v

def mapHas {α : Type} (m : JsMap α) (key : ServiceIdentifier) : Bool :=
  (mapGet m key).isSome

/-- The state of one `Container`: the private maps `registrations` and
`scopedInstances`. -/
structure Container where
  registrations : JsMap Registration
  scopedInstances : JsMap JSVal
deriving DecidableEq, Repr

def Container.empty : Container := ⟨[], []⟩

/-- The world: all containers created so far (addressed by creation
index, so a scope can delegate to its parent), the allocation counter
backing `Producer.alloc`, and a ghost count of producer invocations. -/
structure World where
  containers : Nat → Container
  numContainers : Nat
  allocNext : Nat
  runs : Nat

def World.containerAt (w : World) (cid : Nat) : Container := w.containers cid

def World.setContainer (w : World) (cid : Nat) (c : Container) : World :=
  { w with containers := fun j => if j = cid then c else w.containers j }

def World.regsOf (w : World) (cid : Nat) : JsMap Registration :=
  (w.containerAt cid).registrations

def World.scopedOf (w : World) (cid : Nat) : JsMap JSVal :=
  (w.containerAt cid).scopedInstances

/-- A fresh world holding one empty container (index 0). -/
def World.init : World :=
  ⟨fun _ => Container.empty, 1, 0, 0⟩

/-- What can be thrown out of `resolve`: the not-registered `Error`, a
value thrown by a producer, or stack exhaustion from cyclic delegation
(the source's unguarded recursion). -/
inductive ResolveError where
  | notRegistered (message : String)
  | thrown (e : JSVal)
  | stackOverflow
deriving DecidableEq, Repr

/-- Run a user producer.  The ghost `runs` counter increments on every
invocation, including one that throws. -/
def evalProducer (p : Producer) (w : World) : World × Except ResolveError JSVal :=
  let w1 : World := { w with runs := w.runs + 1 }
  match p with
  | .const v => (w1, .ok v)
  | .alloc => ({ w1 with allocNext := w1.allocNext + 1 }, .ok (.obj w1.allocNext))
  | .throwE e => (w1, .error (.thrown e))

/-- `registration.factory(this)`: a user producer runs directly; the
delegation closure created by `createScope` calls `resolve` on the
parent container (`recur` is `resolve` at the remaining fuel). -/
def runFactory (recur : World → Nat → ServiceIdentifier → World × Except ResolveError JSVal)
    (w : World) : FactoryCode → World × Except ResolveError JSVal
  | .prod p => evalProducer p w
  | .delegate parentCid identifier => recur w parentCid identifier

/-- One unfolding of `Container.resolve`, mirroring the source:

    const registration = this.registrations.get(identifier)
    if (!registration) throw new Error(`Service not registered: ...`)
    switch (registration.lifecycle) {
      case Singleton:
        if (!registration.instance) registration.instance = registration.factory(this)
        return registration.instance
      case Scoped:
        if (!this.scopedInstances.has(identifier))
          this.scopedInstances.set(identifier, registration.factory(this))
        return this.scopedInstances.get(identifier)
      case Transient: default:
        return registration.factory(this)
    }

State persists across a throw (the pair's first component), as JS heap
mutations do. -/
def resolveStep (recur : World → Nat → ServiceIdentifier → World × Except ResolveError JSVal)
    (w : World) (cid : Nat) (identifier : ServiceIdentifier) :
    World × Except ResolveError JSVal :=
  match mapGet (w.regsOf cid) identifier with
  | none =>
      (w, .error (.notRegistered ("Service not registered: " ++ identifier.toStr)))
  | some registration =>
    match registration.lifecycle with
    | .Singleton =>
        if registration.instance_.truthy then
          (w, .ok registration.instance_)
        else
          match runFactory recur w registration.factory with
          | (w1, .error e) => (w1, .error e)
          | (w1, .ok v) =>
              let c := w1.containerAt cid
              let w2 := w1.setContainer cid
                { c with registrations :=
                    mapSet c.registrations identifier { registration with instance_ := v } }
              (w2, .ok v)
    | .Scoped =>
        if mapHas (w.scopedOf cid) identifier then
          (w, .ok ((mapGet (w.scopedOf cid) identifier).getD .undef))
        else
          match runFactory recur w registration.factory with
          | (w1, .error e) => (w1, .error e)
          | (w1, .ok v) =>
              let c := w1.containerAt cid
              let w2 := w1.setContainer cid
                { c with scopedInstances := mapSet c.scopedInstances identifier v }
              (w2, .ok ((mapGet (mapSet c.scopedInstances identifier v) identifier).getD .undef))
    | .Transient => runFactory recur w registration.factory

/-- `Container.resolve`, with fuel bounding the depth of delegation
(the JS call stack). -/
def resolve : Nat → World → Nat → ServiceIdentifier → World × Except ResolveError JSVal
  | 0, w, _, _ => (w, .error .stackOverflow)
  | fuel + 1, w, cid, identifier => resolveStep (resolve fuel) w cid identifier

/-- `Container.register(identifier, factory, lifecycle = Transient)`:
inserts/replaces `{ factory, lifecycle }` (the `instance` slot unset,
i.e. `undefined`). -/
def register (w : World) (cid : Nat) (identifier : ServiceIdentifier)
    (factory : Producer) (lifecycle : Lifecycle) : World :=
  let c := w.containerAt cid
  w.setContainer cid
    { c with registrations :=
        mapSet c.registrations identifier ⟨.prod factory, lifecycle, .undef⟩ }

/-- `Container.registerSingleton`. -/
def registerSingleton (w : World) (cid : Nat) (identifier : ServiceIdentifier)
    (factory : Producer) : World :=
  register w cid identifier factory .Singleton

/-- `Container.registerTransient`. -/
def registerTransient (w : World) (cid : Nat) (identifier : ServiceIdentifier)
    (factory : Producer) : World :=
  register w cid identifier factory .Transient

/-- `Container.registerScoped`. -/
def registerScoped (w : World) (cid : Nat) (identifier : ServiceIdentifier)
    (factory : Producer) : World :=
  register w cid identifier factory .Scoped

/-- `Container.registerClass(identifier, classConstructor, lifecycle)`:
wraps `() => new classConstructor()` as the producer; a zero-argument
constructor invocation allocates a fresh object, i.e. `Producer.alloc`. -/
def registerClass (w : World) (cid : Nat) (identifier : ServiceIdentifier)
    (lifecycle : Lifecycle) : World :=
  register w cid identifier .alloc lifecycle

/-- `Container.registerInstance(identifier, instance)`: a Singleton
whose factory is `() => instance` and whose cache slot is pre-filled. -/
def registerInstance (w : World) (cid : Nat) (identifier : ServiceIdentifier)
    (v : JSVal) : World :=
  let c := w.containerAt cid
  w.setContainer cid
    { c with registrations :=
        mapSet c.registrations identifier ⟨.prod (.const v), .Singleton, v⟩ }

/-- `Container.has(identifier)`. -/
def has (w : World) (cid : Nat) (identifier : ServiceIdentifier) : Bool :=
  mapHas (w.regsOf cid) identifier

/-- The registration the new scope receives for each of the parent's
entries: Singleton entries become `{ factory: () => parent.resolve(id),
lifecycle: Singleton, instance: parent's instance }`; everything else is
spread-copied with `instance: undefined`. -/
def scopeRegistration (parentCid : Nat) (identifier : ServiceIdentifier)
    (registration : Registration) : Registration :=
  if registration.lifecycle = .Singleton then
    ⟨.delegate parentCid identifier, .Singleton, registration.instance_⟩
  else
    ⟨registration.factory, registration.lifecycle, .undef⟩

/-- `Container.createScope()`: a new container (fresh index) whose
registrations are derived entry by entry from the parent's; its
`scopedInstances` map starts empty.  Returns the new container's index
together with the updated world. -/
def createScope (w : World) (cid : Nat) : Nat × World :=
  let scopedContainer : Container :=
    ⟨(w.regsOf cid).map (fun kv => (kv.1, scopeRegistration cid kv.1 kv.2)), []⟩
  (w.numContainers,
    { w.setContainer w.numContainers scopedContainer with
        numContainers := w.numContainers + 1 })

/-- `Container.clearScope()`: `this.scopedInstances.clear()`. -/
def clearScope (w : World) (cid : Nat) : World :=
  let c := w.containerAt cid
  w.setContainer cid { c with scopedInstances := [] }

/-- `Container.clear()`: clears both maps. -/
def clear (w : World) (cid : Nat) : World :=
  w.setContainer cid ⟨[], []⟩

/-- The container's full public operation set, for stating invariants
preserved by every operation. -/
inductive Op where
  | register (cid : Nat) (identifier : ServiceIdentifier) (factory : Producer) (lifecycle : Lifecycle)
  | registerClass (cid : Nat) (identifier : ServiceIdentifier) (lifecycle : Lifecycle)
  | registerInstance (cid : Nat) (identifier : ServiceIdentifier) (v : JSVal)
  | resolve (fuel : Nat) (cid : Nat) (identifier : ServiceIdentifier)
  | createScope (cid : Nat)
  | clearScope (cid : Nat)
  | clear (cid : Nat)

/-- Apply one operation to the world. -/
def step (w : World) : Op → World
  | .register cid i f lc => register w cid i f lc
  | .registerClass cid i lc => registerClass w cid i lc
  | .registerInstance cid i v => registerInstance w cid i v
  | .resolve fuel cid i => (resolve fuel w cid i).1
  | .createScope cid => (createScope w cid).2
  | .clearScope cid => clearScope w cid
  | .clear cid => clear w cid

/-! ### Basic lemmas about the map and world operations -/

theorem mapGet_nil {α : Type} (key : ServiceIdentifier) :
    mapGet ([] : JsMap α) key = none := rfl

theorem mapGet_mapSet_self {α : Type} (m : JsMap α) (key : ServiceIdentifier) (v : α) :
    mapGet (mapSet m key v) key = some v := by
  induction m with
  | nil => simp [mapSet, mapGet]
  | cons kv rest ih =>
      by_cases h : kv.1 = key
      · simp [mapSet, mapGet, h]
      · simp [mapSet, mapGet, h, ih]

theorem mapGet_mapSet_ne {α : Type} (m : JsMap α) {key key' : ServiceIdentifier} (v : α)
    (h : key' ≠ key) : mapGet (mapSet m key v) key' = mapGet m key' := by
  induction m with
  | nil => simp [mapSet, mapGet, Ne.symm h]
  | cons kv rest ih =>
      by_cases hk : kv.1 = key
      · have hne : kv.1 ≠ key' := by rw [hk]; exact Ne.symm h
        simp [mapSet, if_pos hk, mapGet, hne]
      · simp only [mapSet, if_neg hk]
        by_cases hk' : kv.1 = key'
        · simp [mapGet, hk']
        · simp [mapGet, hk', ih]

theorem mapGet_map_keyed {α β : Type} (m : JsMap α) (f : ServiceIdentifier → α → β)
    (key : ServiceIdentifier) :
    mapGet (m.map (fun kv => (kv.1, f kv.1 kv.2))) key = (mapGet m key).map (f key) := by
  induction m with
  | nil => simp [mapGet]
  | cons kv rest ih =>
      by_cases h : kv.1 = key
      · subst h
        simp [mapGet]
      · simp [mapGet, h, ih]

theorem containerAt_setContainer (w : World) (cid : Nat) (c : Container) (cid' : Nat) :
    (w.setContainer cid c).containerAt cid' = if cid' = cid then c else w.containerAt cid' :=
  rfl

theorem containerAt_setContainer_self (w : World) (cid : Nat) (c : Container) :
    (w.setContainer cid c).containerAt cid = c := by
  simp [containerAt_setContainer]

theorem containerAt_setContainer_ne (w : World) {cid : Nat} (c : Container) {cid' : Nat}
    (h : cid' ≠ cid) : (w.setContainer cid c).containerAt cid' = w.containerAt cid' := by
  simp [containerAt_setContainer, h]

theorem numContainers_setContainer (w : World) (cid : Nat) (c : Container) :
    (w.setContainer cid c).numContainers = w.numContainers := rfl

/-- `runs` is a ghost counter: bumping it (as every producer invocation
does) leaves every container untouched. -/
theorem containers_bumpRuns (w : World) (n : Nat) :
    ({ w with runs := n } : World).containers = w.containers := rfl

theorem evalProducer_const (v : JSVal) (w : World) :
    evalProducer (.const v) w = ({ w with runs := w.runs + 1 }, .ok v) := rfl

theorem evalProducer_alloc (w : World) :
    evalProducer .alloc w =
      ({ w with runs := w.runs + 1, allocNext := w.allocNext + 1 }, .ok (.obj w.allocNext)) := rfl

theorem evalProducer_throwE (e : JSVal) (w : World) :
    evalProducer (.throwE e) w = ({ w with runs := w.runs + 1 }, .error (.thrown e)) := rfl

/-- Every user producer leaves all containers unchanged and increments
the ghost invocation counter by exactly one. -/
theorem evalProducer_containers (p : Producer) (w : World) :
    (evalProducer p w).1.containers = w.containers ∧
      (evalProducer p w).1.numContainers = w.numContainers ∧
      (evalProducer p w).1.runs = w.runs + 1 := by
  cases p <;> exact ⟨rfl, rfl, rfl⟩

theorem resolve_succ (fuel : Nat) (w : World) (cid : Nat) (i : ServiceIdentifier) :
    resolve (fuel + 1) w cid i = resolveStep (resolve fuel) w cid i := rfl

theorem resolve_zero (w : World) (cid : Nat) (i : ServiceIdentifier) :
    resolve 0 w cid i = (w, .error .stackOverflow) := rfl

/-! ### One-step branch lemmas for `resolveStep` -/

/-- The world after a Singleton resolution stores the produced value in
the registration's cache slot. -/
def cacheSingleton (w1 : World) (cid : Nat) (i : ServiceIdentifier)
    (registration : Registration) (v : JSVal) : World :=
  let c := w1.containerAt cid
  w1.setContainer cid
    { c with registrations := mapSet c.registrations i { registration with instance_ := v } }

/-- The world after a Scoped resolution stores the produced value in
the scoped-instance cache. -/
def cacheScoped (w1 : World) (cid : Nat) (i : ServiceIdentifier) (v : JSVal) : World :=
  let c := w1.containerAt cid
  w1.setContainer cid { c with scopedInstances := mapSet c.scopedInstances i v }

theorem resolveStep_none (recur : World → Nat → ServiceIdentifier → World × Except ResolveError JSVal)
    {w : World} {cid : Nat} {i : ServiceIdentifier}
    (h : mapGet (w.regsOf cid) i = none) :
    resolveStep recur w cid i =
      (w, .error (.notRegistered ("Service not registered: " ++ i.toStr))) := by
  simp [resolveStep, h]

theorem resolveStep_singleton_truthy
    (recur : World → Nat → ServiceIdentifier → World × Except ResolveError JSVal)
    {w : World} {cid : Nat} {i : ServiceIdentifier} {r : Registration}
    (h : mapGet (w.regsOf cid) i = some r) (hlc : r.lifecycle = .Singleton)
    (ht : r.instance_.truthy = true) :
    resolveStep recur w cid i = (w, .ok r.instance_) := by
  simp [resolveStep, h, hlc, ht]

theorem resolveStep_singleton_run_ok
    (recur : World → Nat → ServiceIdentifier → World × Except ResolveError JSVal)
    {w w1 : World} {cid : Nat} {i : ServiceIdentifier} {r : Registration} {v : JSVal}
    (h : mapGet (w.regsOf cid) i = some r) (hlc : r.lifecycle = .Singleton)
    (ht : r.instance_.truthy = false)
    (hf : runFactory recur w r.factory = (w1, .ok v)) :
    resolveStep recur w cid i = (cacheSingleton w1 cid i r v, .ok v) := by
  simp [resolveStep, h, hlc, ht, hf, cacheSingleton]

theorem resolveStep_singleton_run_err
    (recur : World → Nat → ServiceIdentifier → World × Except ResolveError JSVal)
    {w w1 : World} {cid : Nat} {i : ServiceIdentifier} {r : Registration} {e : ResolveError}
    (h : mapGet (w.regsOf cid) i = some r) (hlc : r.lifecycle = .Singleton)
    (ht : r.instance_.truthy = false)
    (hf : runFactory recur w r.factory = (w1, .error e)) :
    resolveStep recur w cid i = (w1, .error e) := by
  simp [resolveStep, h, hlc, ht, hf]

theorem resolveStep_scoped_cached
    (recur : World → Nat → ServiceIdentifier → World × Except ResolveError JSVal)
    {w : World} {cid : Nat} {i : ServiceIdentifier} {r : Registration}
    (h : mapGet (w.regsOf cid) i = some r) (hlc : r.lifecycle = .Scoped)
    (hhas : mapHas (w.scopedOf cid) i = true) :
    resolveStep recur w cid i = (w, .ok ((mapGet (w.scopedOf cid) i).getD .undef)) := by
  simp [resolveStep, h, hlc, hhas]

theorem resolveStep_scoped_run_ok
    (recur : World → Nat → ServiceIdentifier → World × Except ResolveError JSVal)
    {w w1 : World} {cid : Nat} {i : ServiceIdentifier} {r : Registration} {v : JSVal}
    (h : mapGet (w.regsOf cid) i = some r) (hlc : r.lifecycle = .Scoped)
    (hhas : mapHas (w.scopedOf cid) i = false)
    (hf : runFactory recur w r.factory = (w1, .ok v)) :
    resolveStep recur w cid i = (cacheScoped w1 cid i v, .ok v) := by
  simp [resolveStep, h, hlc, hhas, hf, cacheScoped, mapGet_mapSet_self]

theorem resolveStep_scoped_run_err
    (recur : World → Nat → ServiceIdentifier → World × Except ResolveError JSVal)
    {w w1 : World} {cid : Nat} {i : ServiceIdentifier} {r : Registration} {e : ResolveError}
    (h : mapGet (w.regsOf cid) i = some r) (hlc : r.lifecycle = .Scoped)
    (hhas : mapHas (w.scopedOf cid) i = false)
    (hf : runFactory recur w r.factory = (w1, .error e)) :
    resolveStep recur w cid i = (w1, .error e) := by
  simp [resolveStep, h, hlc, hhas, hf]

theorem resolveStep_transient
    (recur : World → Nat → ServiceIdentifier → World × Except ResolveError JSVal)
    {w : World} {cid : Nat} {i : ServiceIdentifier} {r : Registration}
    (h : mapGet (w.regsOf cid) i = some r) (hlc : r.lifecycle = .Transient) :
    resolveStep recur w cid i = runFactory recur w r.factory := by
  simp [resolveStep, h, hlc]

theorem runFactory_prod
    (recur : World → Nat → ServiceIdentifier → World × Except ResolveError JSVal)
    (w : World) (p : Producer) : runFactory recur w (.prod p) = evalProducer p w := rfl

theorem runFactory_delegate
    (recur : World → Nat → ServiceIdentifier → World × Except ResolveError JSVal)
    (w : World) (pc : Nat) (pi : ServiceIdentifier) :
    runFactory recur w (.delegate pc pi) = recur w pc pi := rfl

/-! ### Effects of the state transformers on the two maps -/

theorem regsOf_eq_of_containers {w w' : World} (h : w'.containers = w.containers) (c : Nat) :
    w'.regsOf c = w.regsOf c := by
  unfold World.regsOf World.containerAt
  rw [h]

theorem scopedOf_eq_of_containers {w w' : World} (h : w'.containers = w.containers) (c : Nat) :
    w'.scopedOf c = w.scopedOf c := by
  unfold World.scopedOf World.containerAt
  rw [h]

theorem regsOf_cacheSingleton_self (w1 : World) (cid : Nat) (i : ServiceIdentifier)
    (r : Registration) (v : JSVal) :
    (cacheSingleton w1 cid i r v).regsOf cid = mapSet (w1.regsOf cid) i { r with instance_ := v } := by
  simp [cacheSingleton, World.regsOf, containerAt_setContainer_self]

theorem regsOf_cacheSingleton_ne (w1 : World) {cid : Nat} (i : ServiceIdentifier)
    (r : Registration) (v : JSVal) {c : Nat} (h : c ≠ cid) :
    (cacheSingleton w1 cid i r v).regsOf c = w1.regsOf c := by
  simp [cacheSingleton, World.regsOf, containerAt_setContainer_ne _ _ h]

theorem scopedOf_cacheSingleton (w1 : World) (cid : Nat) (i : ServiceIdentifier)
    (r : Registration) (v : JSVal) (c : Nat) :
    (cacheSingleton w1 cid i r v).scopedOf c = w1.scopedOf c := by
  by_cases h : c = cid
  · subst h
    simp [cacheSingleton, World.scopedOf, containerAt_setContainer_self]
  · simp [cacheSingleton, World.scopedOf, containerAt_setContainer_ne _ _ h]

theorem scopedOf_cacheScoped_self (w1 : World) (cid : Nat) (i : ServiceIdentifier) (v : JSVal) :
    (cacheScoped w1 cid i v).scopedOf cid = mapSet (w1.scopedOf cid) i v := by
  simp [cacheScoped, World.scopedOf, containerAt_setContainer_self]

theorem scopedOf_cacheScoped_ne (w1 : World) {cid : Nat} (i : ServiceIdentifier) (v : JSVal)
    {c : Nat} (h : c ≠ cid) :
    (cacheScoped w1 cid i v).scopedOf c = w1.scopedOf c := by
  simp [cacheScoped, World.scopedOf, containerAt_setContainer_ne _ _ h]

theorem regsOf_cacheScoped (w1 : World) (cid : Nat) (i : ServiceIdentifier) (v : JSVal)
    (c : Nat) : (cacheScoped w1 cid i v).regsOf c = w1.regsOf c := by
  by_cases h : c = cid
  · subst h
    simp [cacheScoped, World.regsOf, containerAt_setContainer_self]
  · simp [cacheScoped, World.regsOf, containerAt_setContainer_ne _ _ h]

theorem containerAt_cacheSingleton_ne (w1 : World) {cid : Nat} (i : ServiceIdentifier)
    (r : Registration) (v : JSVal) {c : Nat} (h : c ≠ cid) :
    (cacheSingleton w1 cid i r v).containerAt c = w1.containerAt c :=
  containerAt_setContainer_ne _ _ h

theorem containerAt_cacheScoped_ne (w1 : World) {cid : Nat} (i : ServiceIdentifier)
    (v : JSVal) {c : Nat} (h : c ≠ cid) :
    (cacheScoped w1 cid i v).containerAt c = w1.containerAt c :=
  containerAt_setContainer_ne _ _ h

theorem regsOf_register_self (w : World) (cid : Nat) (i : ServiceIdentifier)
    (p : Producer) (lc : Lifecycle) :
    (register w cid i p lc).regsOf cid = mapSet (w.regsOf cid) i ⟨.prod p, lc, .undef⟩ := by
  simp [register, World.regsOf, containerAt_setContainer_self]

theorem scopedOf_register (w : World) (cid : Nat) (i : ServiceIdentifier)
    (p : Producer) (lc : Lifecycle) (c : Nat) :
    (register w cid i p lc).scopedOf c = w.scopedOf c := by
  by_cases h : c = cid
  · subst h
    simp [register, World.scopedOf, containerAt_setContainer_self]
  · simp [register, World.scopedOf, containerAt_setContainer_ne _ _ h]

theorem regsOf_registerInstance_self (w : World) (cid : Nat) (i : ServiceIdentifier)
    (v : JSVal) :
    (registerInstance w cid i v).regsOf cid =
      mapSet (w.regsOf cid) i ⟨.prod (.const v), .Singleton, v⟩ := by
  simp [registerInstance, World.regsOf, containerAt_setContainer_self]

theorem scopedOf_registerInstance (w : World) (cid : Nat) (i : ServiceIdentifier)
    (v : JSVal) (c : Nat) :
    (registerInstance w cid i v).scopedOf c = w.scopedOf c := by
  by_cases h : c = cid
  · subst h
    simp [registerInstance, World.scopedOf, containerAt_setContainer_self]
  · simp [registerInstance, World.scopedOf, containerAt_setContainer_ne _ _ h]

/-! ### Effects of `createScope`, `clearScope`, `clear` -/

theorem createScope_fst (w : World) (cid : Nat) : (createScope w cid).1 = w.numContainers := rfl

theorem createScope_numContainers (w : World) (cid : Nat) :
    (createScope w cid).2.numContainers = w.numContainers + 1 := rfl

theorem createScope_allocNext (w : World) (cid : Nat) :
    (createScope w cid).2.allocNext = w.allocNext := rfl

theorem createScope_runs (w : World) (cid : Nat) :
    (createScope w cid).2.runs = w.runs := rfl

theorem createScope_containerAt_new (w : World) (cid : Nat) :
    (createScope w cid).2.containerAt w.numContainers =
      ⟨(w.regsOf cid).map (fun kv => (kv.1, scopeRegistration cid kv.1 kv.2)), []⟩ := by
  simp [createScope, World.containerAt, World.setContainer]

theorem createScope_containerAt_old (w : World) (cid : Nat) {c : Nat}
    (h : c ≠ w.numContainers) :
    (createScope w cid).2.containerAt c = w.containerAt c := by
  simp only [createScope]
  exact containerAt_setContainer_ne _ _ h

theorem createScope_regsOf_new (w : World) (cid : Nat) :
    (createScope w cid).2.regsOf w.numContainers =
      (w.regsOf cid).map (fun kv => (kv.1, scopeRegistration cid kv.1 kv.2)) := by
  unfold World.regsOf
  rw [createScope_containerAt_new]
  rfl

theorem createScope_scopedOf_new (w : World) (cid : Nat) :
    (createScope w cid).2.scopedOf w.numContainers = [] := by
  unfold World.scopedOf
  rw [createScope_containerAt_new]

theorem scopeRegistration_singleton {r : Registration} (pc : Nat) (i : ServiceIdentifier)
    (hlc : r.lifecycle = .Singleton) :
    scopeRegistration pc i r = ⟨.delegate pc i, .Singleton, r.instance_⟩ := by
  simp [scopeRegistration, hlc]

theorem scopeRegistration_scoped {r : Registration} (pc : Nat) (i : ServiceIdentifier)
    (hlc : r.lifecycle = .Scoped) :
    scopeRegistration pc i r = ⟨r.factory, .Scoped, .undef⟩ := by
  simp [scopeRegistration, hlc]

theorem scopeRegistration_transient {r : Registration} (pc : Nat) (i : ServiceIdentifier)
    (hlc : r.lifecycle = .Transient) :
    scopeRegistration pc i r = ⟨r.factory, .Transient, .undef⟩ := by
  simp [scopeRegistration, hlc]

theorem regsOf_clearScope (w : World) (cid : Nat) (c : Nat) :
    (clearScope w cid).regsOf c = w.regsOf c := by
  by_cases h : c = cid
  · subst h
    simp [clearScope, World.regsOf, containerAt_setContainer_self]
  · simp [clearScope, World.regsOf, containerAt_setContainer_ne _ _ h]

theorem scopedOf_clearScope_self (w : World) (cid : Nat) :
    (clearScope w cid).scopedOf cid = [] := by
  simp [clearScope, World.scopedOf, containerAt_setContainer_self]

theorem scopedOf_clearScope_ne (w : World) {cid c : Nat} (h : c ≠ cid) :
    (clearScope w cid).scopedOf c = w.scopedOf c := by
  simp [clearScope, World.scopedOf, containerAt_setContainer_ne _ _ h]

theorem clearScope_allocNext (w : World) (cid : Nat) :
    (clearScope w cid).allocNext = w.allocNext := rfl

theorem clearScope_runs (w : World) (cid : Nat) : (clearScope w cid).runs = w.runs := rfl

theorem scopedOf_clear (w : World) (cid : Nat) (c : Nat) :
    (clear w cid).scopedOf c = if c = cid then [] else w.scopedOf c := by
  by_cases h : c = cid
  · subst h
    simp [clear, World.scopedOf, containerAt_setContainer_self]
  · simp [clear, World.scopedOf, containerAt_setContainer_ne _ _ h, h]

/-! ### Mid-level resolution lemmas -/

/-- Resolving a Transient registration whose factory is a plain producer
is exactly one producer invocation, returned directly. -/
theorem transient_step {f : Nat} {w : World} {cid : Nat} {i : ServiceIdentifier}
    {r : Registration} {p : Producer}
    (h : mapGet (w.regsOf cid) i = some r) (hlc : r.lifecycle = .Transient)
    (hfac : r.factory = .prod p) :
    resolve (f + 1) w cid i = evalProducer p w := by
  rw [resolve_succ, resolveStep_transient _ h hlc, hfac, runFactory_prod]

/-- A throwing producer under Singleton (with an untruthy cache slot) or
Scoped (with no cache entry) propagates its error unmodified and leaves
every container untouched; only the ghost invocation counter moves. -/
theorem throw_step {f : Nat} {w : World} {cid : Nat} {i : ServiceIdentifier}
    {r : Registration} {e : JSVal}
    (h : mapGet (w.regsOf cid) i = some r) (hfac : r.factory = .prod (.throwE e))
    (hcase : (r.lifecycle = .Singleton ∧ r.instance_.truthy = false) ∨
             (r.lifecycle = .Scoped ∧ mapHas (w.scopedOf cid) i = false)) :
    resolve (f + 1) w cid i = ({ w with runs := w.runs + 1 }, .error (.thrown e)) := by
  have hf : runFactory (resolve f) w r.factory =
      ({ w with runs := w.runs + 1 }, .error (.thrown e)) := by
    rw [hfac, runFactory_prod, evalProducer_throwE]
  rcases hcase with ⟨hlc, ht⟩ | ⟨hlc, hhas⟩
  · rw [resolve_succ, resolveStep_singleton_run_err _ h hlc ht hf]
  · rw [resolve_succ, resolveStep_scoped_run_err _ h hlc hhas hf]

/-- After a successful Scoped resolution through a plain producer, the
value is cached: resolving again returns the same value and leaves the
world exactly as it was. -/
theorem scoped_resolve_stable {f g : Nat} {w w1 : World} {cid : Nat} {i : ServiceIdentifier}
    {r : Registration} {p : Producer} {v : JSVal}
    (h : mapGet (w.regsOf cid) i = some r) (hlc : r.lifecycle = .Scoped)
    (hfac : r.factory = .prod p)
    (hres : resolve (f + 1) w cid i = (w1, .ok v)) :
    resolve (g + 1) w1 cid i = (w1, .ok v) := by
  have stable_of_state : ∀ (w' : World), mapGet (w'.regsOf cid) i = some r →
      mapGet (w'.scopedOf cid) i = some v → resolve (g + 1) w' cid i = (w', .ok v) := by
    intro w' h' hget
    have hhas : mapHas (w'.scopedOf cid) i = true := by
      unfold mapHas
      rw [hget]
      rfl
    rw [resolve_succ, resolveStep_scoped_cached _ h' hlc hhas, hget]
    rfl
  by_cases hhas : mapHas (w.scopedOf cid) i = true
  · -- already cached before the first resolution
    have hget : ∃ v0, mapGet (w.scopedOf cid) i = some v0 := by
      unfold mapHas at hhas
      exact Option.isSome_iff_exists.mp hhas
    rcases hget with ⟨v0, hget⟩
    rw [resolve_succ, resolveStep_scoped_cached _ h hlc hhas, hget] at hres
    have hw : w = w1 := congrArg Prod.fst hres
    have hv : v0 = v := by
      have := congrArg Prod.snd hres
      simpa using this
    subst hw
    exact stable_of_state w h (hv ▸ hget)
  · -- first resolution ran the producer and cached its value
    have hhas' : mapHas (w.scopedOf cid) i = false := by
      revert hhas
      cases mapHas (w.scopedOf cid) i <;> simp
    rw [resolve_succ] at hres
    cases p with
    | const c =>
        have hf : runFactory (resolve f) w r.factory =
            ({ w with runs := w.runs + 1 }, .ok c) := by
          rw [hfac, runFactory_prod, evalProducer_const]
        rw [resolveStep_scoped_run_ok _ h hlc hhas' hf] at hres
        have hw : cacheScoped { w with runs := w.runs + 1 } cid i c = w1 :=
          congrArg Prod.fst hres
        have hv : c = v := by
          have := congrArg Prod.snd hres
          simpa using this
        subst hw hv
        refine stable_of_state _ ?_ ?_
        · rw [regsOf_cacheScoped]
          exact h
        · rw [scopedOf_cacheScoped_self]
          exact mapGet_mapSet_self _ _ _
    | alloc =>
        have hf : runFactory (resolve f) w r.factory =
            ({ w with runs := w.runs + 1, allocNext := w.allocNext + 1 },
              .ok (.obj w.allocNext)) := by
          rw [hfac, runFactory_prod, evalProducer_alloc]
        rw [resolveStep_scoped_run_ok _ h hlc hhas' hf] at hres
        have hw : cacheScoped { w with runs := w.runs + 1, allocNext := w.allocNext + 1 }
            cid i (.obj w.allocNext) = w1 := congrArg Prod.fst hres
        have hv : JSVal.obj w.allocNext = v := by
          have := congrArg Prod.snd hres
          simpa using this
        subst hw hv
        refine stable_of_state _ ?_ ?_
        · rw [regsOf_cacheScoped]
          exact h
        · rw [scopedOf_cacheScoped_self]
          exact mapGet_mapSet_self _ _ _
    | throwE e =>
        have hf : runFactory (resolve f) w r.factory =
            ({ w with runs := w.runs + 1 }, .error (.thrown e)) := by
          rw [hfac, runFactory_prod, evalProducer_throwE]
        rw [resolveStep_scoped_run_err _ h hlc hhas' hf] at hres
        exact absurd (congrArg Prod.snd hres) (by simp)

/-- Resolving a registration whose factory is a plain producer only ever
mutates the resolved container itself: every other container is
untouched (whether the resolution succeeds or throws). -/
theorem resolve_prod_containerAt {f : Nat} {w : World} {cid : Nat} {i : ServiceIdentifier}
    {r : Registration} {p : Producer} {c : Nat}
    (h : mapGet (w.regsOf cid) i = some r) (hfac : r.factory = .prod p)
    (hne : c ≠ cid) :
    (resolve (f + 1) w cid i).1.containerAt c = w.containerAt c := by
  have hcont : ∀ (q : Producer), (evalProducer q w).1.containerAt c = w.containerAt c := by
    intro q
    cases q <;> rfl
  rw [resolve_succ]
  rcases hlc : r.lifecycle with _ | _ | _
  · -- Transient
    rw [resolveStep_transient _ h hlc, hfac, runFactory_prod]
    exact hcont p
  · -- Singleton
    by_cases ht : r.instance_.truthy = true
    · rw [resolveStep_singleton_truthy _ h hlc ht]
    · have ht' : r.instance_.truthy = false := by
        revert ht
        cases r.instance_.truthy <;> simp
      cases p with
      | const v =>
          rw [resolveStep_singleton_run_ok _ h hlc ht'
            (by rw [hfac, runFactory_prod, evalProducer_const])]
          exact containerAt_cacheSingleton_ne _ _ _ _ hne
      | alloc =>
          rw [resolveStep_singleton_run_ok _ h hlc ht'
            (by rw [hfac, runFactory_prod, evalProducer_alloc])]
          exact containerAt_cacheSingleton_ne _ _ _ _ hne
      | throwE e =>
          rw [resolveStep_singleton_run_err _ h hlc ht'
            (by rw [hfac, runFactory_prod, evalProducer_throwE])]
          rfl
  · -- Scoped
    by_cases hhas : mapHas (w.scopedOf cid) i = true
    · rw [resolveStep_scoped_cached _ h hlc hhas]
    · have hhas' : mapHas (w.scopedOf cid) i = false := by
        revert hhas
        cases mapHas (w.scopedOf cid) i <;> simp
      cases p with
      | const v =>
          rw [resolveStep_scoped_run_ok _ h hlc hhas'
            (by rw [hfac, runFactory_prod, evalProducer_const])]
          exact containerAt_cacheScoped_ne _ _ _ hne
      | alloc =>
          rw [resolveStep_scoped_run_ok _ h hlc hhas'
            (by rw [hfac, runFactory_prod, evalProducer_alloc])]
          exact containerAt_cacheScoped_ne _ _ _ hne
      | throwE e =>
          rw [resolveStep_scoped_run_err _ h hlc hhas'
            (by rw [hfac, runFactory_prod, evalProducer_throwE])]
          rfl

/-- After a successful Singleton resolution through a plain producer,
the registration's cache slot holds the returned value, and either the
value is truthy or the producer deterministically returns it. -/
theorem singleton_post_state {f : Nat} {w w1 : World} {cid : Nat} {i : ServiceIdentifier}
    {r : Registration} {p : Producer} {v : JSVal}
    (h : mapGet (w.regsOf cid) i = some r) (hlc : r.lifecycle = .Singleton)
    (hfac : r.factory = .prod p)
    (hres : resolve (f + 1) w cid i = (w1, .ok v)) :
    ∃ r1 : Registration, mapGet (w1.regsOf cid) i = some r1 ∧
      r1.lifecycle = .Singleton ∧ r1.factory = .prod p ∧ r1.instance_ = v ∧
      (p = .const v ∨ v.truthy = true) := by
  rw [resolve_succ] at hres
  by_cases ht : r.instance_.truthy = true
  · rw [resolveStep_singleton_truthy _ h hlc ht] at hres
    have hw : w = w1 := congrArg Prod.fst hres
    have hv : r.instance_ = v := by
      have := congrArg Prod.snd hres
      simpa using this
    subst hw
    exact ⟨r, h, hlc, hfac, hv, Or.inr (hv ▸ ht)⟩
  · have ht' : r.instance_.truthy = false := by
      revert ht
      cases r.instance_.truthy <;> simp
    cases p with
    | const c =>
        rw [resolveStep_singleton_run_ok _ h hlc ht'
          (by rw [hfac, runFactory_prod, evalProducer_const])] at hres
        have hw : cacheSingleton { w with runs := w.runs + 1 } cid i r c = w1 :=
          congrArg Prod.fst hres
        have hv : c = v := by
          have := congrArg Prod.snd hres
          simpa using this
        subst hw hv
        refine ⟨{ r with instance_ := c }, ?_, hlc, hfac, rfl, Or.inl rfl⟩
        rw [regsOf_cacheSingleton_self]
        exact mapGet_mapSet_self _ _ _
    | alloc =>
        rw [resolveStep_singleton_run_ok _ h hlc ht'
          (by rw [hfac, runFactory_prod, evalProducer_alloc])] at hres
        have hw : cacheSingleton { w with runs := w.runs + 1, allocNext := w.allocNext + 1 }
            cid i r (.obj w.allocNext) = w1 := congrArg Prod.fst hres
        have hv : JSVal.obj w.allocNext = v := by
          have := congrArg Prod.snd hres
          simpa using this
        subst hw hv
        refine ⟨{ r with instance_ := JSVal.obj w.allocNext }, ?_, hlc, hfac, rfl, Or.inr rfl⟩
        rw [regsOf_cacheSingleton_self]
        exact mapGet_mapSet_self _ _ _
    | throwE e =>
        rw [resolveStep_singleton_run_err _ h hlc ht'
          (by rw [hfac, runFactory_prod, evalProducer_throwE])] at hres
        exact absurd (congrArg Prod.snd hres) (by simp)

/-- From the post-state of a successful Singleton resolution, resolving
the identifier again (in any world holding that registration state)
returns the same value. -/
theorem singleton_resolve_from_state {g : Nat} {w' : World} {cid : Nat} {i : ServiceIdentifier}
    {r1 : Registration} {p : Producer} {v : JSVal}
    (h : mapGet (w'.regsOf cid) i = some r1) (hlc : r1.lifecycle = .Singleton)
    (hfac : r1.factory = .prod p) (hinst : r1.instance_ = v)
    (hp : p = .const v ∨ v.truthy = true) :
    ∃ w2, resolve (g + 1) w' cid i = (w2, .ok v) := by
  by_cases ht : v.truthy = true
  · refine ⟨w', ?_⟩
    rw [resolve_succ, resolveStep_singleton_truthy _ h hlc (by rw [hinst]; exact ht), hinst]
  · have hpc : p = .const v := by
      rcases hp with hp | hp
      · exact hp
      · exact absurd hp ht
    have ht' : r1.instance_.truthy = false := by
      rw [hinst]
      revert ht
      cases v.truthy <;> simp
    refine ⟨cacheSingleton { w' with runs := w'.runs + 1 } cid i r1 v, ?_⟩
    rw [resolve_succ, resolveStep_singleton_run_ok _ h hlc ht'
      (by rw [hfac, hpc, runFactory_prod, evalProducer_const])]

/-- Count the entries of a map holding a given key (a JavaScript `Map`
always has at most one). -/
def countKey {α : Type} : JsMap α → ServiceIdentifier → Nat
  | [], _ => 0
  | (k, _) :: rest, key => (if k = key then 1 else 0) + countKey rest key

theorem countKey_mapSet {α : Type} (m : JsMap α) (key : ServiceIdentifier) (v : α)
    (h : countKey m key ≤ 1) : countKey (mapSet m key v) key = 1 := by
  induction m with
  | nil => simp [mapSet, countKey]
  | cons kv rest ih =>
      rcases kv with ⟨k, v0⟩
      by_cases hk : k = key
      · have h0 : countKey rest key = 0 := by
          simp only [countKey, if_pos hk] at h
          omega
        simp [mapSet, hk, countKey, h0]
      · simp only [countKey, if_neg hk, zero_add] at h
        simp [mapSet, hk, countKey, ih h]

/-- `resolveN n fuel w cid i`: the world after `n` successive `resolve`
calls for the same identifier. -/
def resolveN : Nat → Nat → World → Nat → ServiceIdentifier → World
  | 0, _, w, _, _ => w
  | n + 1, fuel, w, cid, i => resolveN n fuel (resolve fuel w cid i).1 cid i

/-! ### Concrete fixture worlds used by witnesses and counterexamples -/

/-- A container whose identifier `"a"` is a Singleton producing the falsy value `0`. -/
def wC1 : World := register World.init 0 (.str "a") (.const (.num 0)) .Singleton

/-- A parent container with a Singleton `"a"`, from which a scope is derived
before the parent is cleared. -/
def wC2 : World := clear (createScope (register World.init 0 (.str "a") .alloc .Singleton) 0).2 0

/-- A Transient registration on a fresh container. -/
def wC2t : World := register World.init 0 (.str "b") (.const (.num 1)) .Transient

/-- A Singleton registration whose producer throws the string `"err"`. -/
def wC3 : World := register World.init 0 (.str "boom") (.throwE (.str "err")) .Singleton

/-- A Transient registration whose producer allocates fresh objects. -/
def wC7 : World := register World.init 0 (.str "t") .alloc .Transient

/-- A Transient registration later re-registered under the same identifier. -/
def wC9 : World := register World.init 0 (.str "x") (.const (.num 1)) .Transient

/-- A Scoped registration whose producer returns the falsy value `undefined`. -/
def wC10 : World := register World.init 0 (.str "s") (.const .undef) .Scoped

/-! ### C1 -/

/-- C1 (code bug): the claim — and the specification — say that a Singleton
producer runs exactly once per container across any number of resolutions,
for every producer.  The code checks the cache slot with a truthiness test
(`if (!registration.instance)`), not a presence test, so a Singleton whose
producer returns the falsy value `0` is re-invoked by every `resolve`:
after two resolutions of `register("a", () => 0, Singleton)`, both calls
return `0` but the producer invocation counter is `2`, not `1`. -/
theorem C1_singleton_falsy_producer_runs_twice :
    (resolve 1 wC1 0 (.str "a")).2 = .ok (.num 0) ∧
    (resolve 1 wC1 0 (.str "a")).1.runs = 1 ∧
    (resolve 1 (resolve 1 wC1 0 (.str "a")).1 0 (.str "a")).2 = .ok (.num 0) ∧
    (resolve 1 (resolve 1 wC1 0 (.str "a")).1 0 (.str "a")).1.runs = 2 :=
  ⟨rfl, rfl, rfl, rfl⟩

/-! ### C2 -/

/-- C2 counterexample: a registered identifier on which `resolve` raises
NotRegistered.  Register `"a"` Singleton on container 0, derive a scope
(container 1), then `clear()` the parent.  The scope still *has* `"a"`
(its registration table holds the delegating entry), yet resolving `"a"`
on the scope throws `Service not registered: a`, because the delegation
`() => parent.resolve("a")` hits the parent's now-empty table. -/
theorem C2_counterexample_scope_resolve_raises_notRegistered :
    has wC2 1 (.str "a") = true ∧
    (resolve 2 wC2 1 (.str "a")).2 =
      .error (.notRegistered "Service not registered: a") :=
  ⟨rfl, rfl⟩

/-- C2 (amended): `resolve` on an identifier with no entry in the
registration table fails with NotRegistered carrying the identifier's
string representation (and changes nothing); and `resolve` on a registered
identifier whose registration holds a plain producer — i.e. any
registration made through the `register*` operations, as opposed to the
delegating entry `createScope` installs for Singletons — never raises
NotRegistered.  (The unamended second half is false: the counterexample
shows a scope's delegating Singleton entry raising NotRegistered after
the parent's table was cleared.) -/
theorem C2_notRegistered_amended :
    (∀ (f : Nat) (w : World) (cid : Nat) (i : ServiceIdentifier),
        mapGet (w.regsOf cid) i = none →
        resolve (f + 1) w cid i =
          (w, .error (.notRegistered ("Service not registered: " ++ i.toStr)))) ∧
    (∀ (f : Nat) (w : World) (cid : Nat) (i : ServiceIdentifier) (r : Registration)
        (p : Producer) (m : String),
        mapGet (w.regsOf cid) i = some r → r.factory = .prod p →
        (resolve (f + 1) w cid i).2 ≠ .error (.notRegistered m)) := by
  constructor
  · intro f w cid i h
    rw [resolve_succ, resolveStep_none _ h]
  · intro f w cid i r p m h hfac
    rcases hlc : r.lifecycle with _ | _ | _
    · rw [transient_step h hlc hfac]
      cases p <;> simp [evalProducer]
    · by_cases ht : r.instance_.truthy = true
      · rw [resolve_succ, resolveStep_singleton_truthy _ h hlc ht]
        simp
      · have ht' : r.instance_.truthy = false := by
          revert ht
          cases r.instance_.truthy <;> simp
        cases p with
        | const c =>
            rw [resolve_succ, resolveStep_singleton_run_ok _ h hlc ht'
              (by rw [hfac, runFactory_prod, evalProducer_const])]
            simp
        | alloc =>
            rw [resolve_succ, resolveStep_singleton_run_ok _ h hlc ht'
              (by rw [hfac, runFactory_prod, evalProducer_alloc])]
            simp
        | throwE e =>
            rw [resolve_succ, resolveStep_singleton_run_err _ h hlc ht'
              (by rw [hfac, runFactory_prod, evalProducer_throwE])]
            simp
    · by_cases hhas : mapHas (w.scopedOf cid) i = true
      · rw [resolve_succ, resolveStep_scoped_cached _ h hlc hhas]
        simp
      · have hhas' : mapHas (w.scopedOf cid) i = false := by
          revert hhas
          cases mapHas (w.scopedOf cid) i <;> simp
        cases p with
        | const c =>
            rw [resolve_succ, resolveStep_scoped_run_ok _ h hlc hhas'
              (by rw [hfac, runFactory_prod, evalProducer_const])]
            simp
        | alloc =>
            rw [resolve_succ, resolveStep_scoped_run_ok _ h hlc hhas'
              (by rw [hfac, runFactory_prod, evalProducer_alloc])]
            simp
        | throwE e =>
            rw [resolve_succ, resolveStep_scoped_run_err _ h hlc hhas'
              (by rw [hfac, runFactory_prod, evalProducer_throwE])]
            simp

theorem C2_notRegistered_amended_witness :
    resolve 1 World.init 0 (.str "missing") =
      (World.init, .error (.notRegistered "Service not registered: missing")) ∧
    (resolve 1 wC2t 0 (.str "b")).2 ≠
      .error (.notRegistered "Service not registered: b") :=
  ⟨C2_notRegistered_amended.1 0 World.init 0 (.str "missing") rfl,
   C2_notRegistered_amended.2 0 wC2t 0 (.str "b")
     ⟨.prod (.const (.num 1)), .Transient, .undef⟩ (.const (.num 1))
     "Service not registered: b" rfl rfl⟩

/-! ### C3 -/

/-- C3: when a Singleton (with an unfilled cache slot) or Scoped (with no
scoped-cache entry) producer throws, the thrown value propagates
unmodified out of `resolve`, the container state is exactly as before
(only the ghost invocation counter moves — in particular neither cache
gains an entry), and the next `resolve` invokes the producer again (the
counter moves again). -/
theorem C3_producer_throw_propagates_no_poison :
    ∀ (f g : Nat) (w : World) (cid : Nat) (i : ServiceIdentifier)
      (r : Registration) (e : JSVal),
      mapGet (w.regsOf cid) i = some r → r.factory = .prod (.throwE e) →
      ((r.lifecycle = .Singleton ∧ r.instance_.truthy = false) ∨
       (r.lifecycle = .Scoped ∧ mapHas (w.scopedOf cid) i = false)) →
      resolve (f + 1) w cid i = ({ w with runs := w.runs + 1 }, .error (.thrown e)) ∧
      resolve (g + 1) { w with runs := w.runs + 1 } cid i =
        ({ w with runs := w.runs + 2 }, .error (.thrown e)) := by
  intro f g w cid i r e h hfac hcase
  refine ⟨throw_step h hfac hcase, ?_⟩
  have h' : mapGet (World.regsOf { w with runs := w.runs + 1 } cid) i = some r := h
  have hcase' : (r.lifecycle = .Singleton ∧ r.instance_.truthy = false) ∨
      (r.lifecycle = .Scoped ∧
        mapHas (World.scopedOf { w with runs := w.runs + 1 } cid) i = false) := hcase
  exact throw_step h' hfac hcase'

theorem C3_producer_throw_propagates_no_poison_witness :
    resolve 1 wC3 0 (.str "boom") =
      ({ wC3 with runs := wC3.runs + 1 }, .error (.thrown (.str "err"))) ∧
    resolve 1 { wC3 with runs := wC3.runs + 1 } 0 (.str "boom") =
      ({ wC3 with runs := wC3.runs + 2 }, .error (.thrown (.str "err"))) :=
  C3_producer_throw_propagates_no_poison 0 0 wC3 0 (.str "boom")
    ⟨.prod (.throwE (.str "err")), .Singleton, .undef⟩ (.str "err") rfl rfl
    (Or.inl ⟨rfl, rfl⟩)

/-! ### C7 -/

/-- C7: resolving a Transient registration invokes the producer exactly
once and returns its result directly (`resolve` IS the producer call);
it writes to no container state — neither the registration cache slot
nor the scoped-instance cache (`containers` is untouched) — and `n`
successive resolutions perform exactly `n` producer invocations. -/
theorem C7_transient_always_runs_producer :
    (∀ (f : Nat) (w : World) (cid : Nat) (i : ServiceIdentifier)
        (r : Registration) (p : Producer),
        mapGet (w.regsOf cid) i = some r → r.lifecycle = .Transient →
        r.factory = .prod p →
        resolve (f + 1) w cid i = evalProducer p w ∧
        (resolve (f + 1) w cid i).1.containers = w.containers ∧
        (resolve (f + 1) w cid i).1.runs = w.runs + 1) ∧
    (∀ (n f : Nat) (w : World) (cid : Nat) (i : ServiceIdentifier)
        (r : Registration) (p : Producer),
        mapGet (w.regsOf cid) i = some r → r.lifecycle = .Transient →
        r.factory = .prod p →
        (resolveN n (f + 1) w cid i).runs = w.runs + n ∧
        (resolveN n (f + 1) w cid i).containers = w.containers) := by
  constructor
  · intro f w cid i r p h hlc hfac
    refine ⟨transient_step h hlc hfac, ?_, ?_⟩
    · rw [transient_step h hlc hfac]
      exact (evalProducer_containers p w).1
    · rw [transient_step h hlc hfac]
      exact (evalProducer_containers p w).2.2
  · intro n
    induction n with
    | zero =>
        intro f w cid i r p h hlc hfac
        exact ⟨rfl, rfl⟩
    | succ n ih =>
        intro f w cid i r p h hlc hfac
        have hcont : (resolve (f + 1) w cid i).1.containers = w.containers := by
          rw [transient_step h hlc hfac]
          exact (evalProducer_containers p w).1
        have hruns : (resolve (f + 1) w cid i).1.runs = w.runs + 1 := by
          rw [transient_step h hlc hfac]
          exact (evalProducer_containers p w).2.2
        have h' : mapGet ((resolve (f + 1) w cid i).1.regsOf cid) i = some r := by
          rw [regsOf_eq_of_containers hcont]
          exact h
        have hrec := ih f (resolve (f + 1) w cid i).1 cid i r p h' hlc hfac
        constructor
        · show (resolveN n (f + 1) (resolve (f + 1) w cid i).1 cid i).runs = w.runs + (n + 1)
          rw [hrec.1, hruns]
          omega
        · show (resolveN n (f + 1) (resolve (f + 1) w cid i).1 cid i).containers = w.containers
          rw [hrec.2, hcont]

theorem C7_transient_always_runs_producer_witness :
    resolve 1 wC7 0 (.str "t") = evalProducer .alloc wC7 ∧
    (resolveN 3 1 wC7 0 (.str "t")).runs = wC7.runs + 3 :=
  ⟨(C7_transient_always_runs_producer.1 0 wC7 0 (.str "t")
      ⟨.prod .alloc, .Transient, .undef⟩ .alloc rfl rfl rfl).1,
   (C7_transient_always_runs_producer.2 3 0 wC7 0 (.str "t")
      ⟨.prod .alloc, .Transient, .undef⟩ .alloc rfl rfl rfl).1⟩

/-! ### C9 -/

/-- C9: registering an already-registered identifier never fails (all
`register*` operations are total) and replaces the prior registration
entirely: afterwards the table holds exactly one entry for the
identifier, carrying the new producer and lifecycle (`register`), the
class-wrapping producer (`registerClass`), or the constant producer with
pre-filled Singleton slot (`registerInstance`); entries of other
identifiers are untouched. -/
theorem C9_register_last_write_wins :
    ∀ (w : World) (cid : Nat) (i : ServiceIdentifier) (r0 : Registration)
      (p : Producer) (lc : Lifecycle) (v : JSVal),
      mapGet (w.regsOf cid) i = some r0 →
      countKey (w.regsOf cid) i ≤ 1 →
      (mapGet ((register w cid i p lc).regsOf cid) i = some ⟨.prod p, lc, .undef⟩ ∧
       countKey ((register w cid i p lc).regsOf cid) i = 1 ∧
       ∀ j, j ≠ i →
         mapGet ((register w cid i p lc).regsOf cid) j = mapGet (w.regsOf cid) j) ∧
      (mapGet ((registerClass w cid i lc).regsOf cid) i = some ⟨.prod .alloc, lc, .undef⟩ ∧
       countKey ((registerClass w cid i lc).regsOf cid) i = 1) ∧
      (mapGet ((registerInstance w cid i v).regsOf cid) i =
         some ⟨.prod (.const v), .Singleton, v⟩ ∧
       countKey ((registerInstance w cid i v).regsOf cid) i = 1) := by
  intro w cid i r0 p lc v _ hcount
  refine ⟨⟨?_, ?_, ?_⟩, ⟨?_, ?_⟩, ⟨?_, ?_⟩⟩
  · rw [regsOf_register_self]
    exact mapGet_mapSet_self _ _ _
  · rw [regsOf_register_self]
    exact countKey_mapSet _ _ _ hcount
  · intro j hj
    rw [regsOf_register_self]
    exact mapGet_mapSet_ne _ _ hj
  · show mapGet ((register w cid i .alloc lc).regsOf cid) i = _
    rw [regsOf_register_self]
    exact mapGet_mapSet_self _ _ _
  · show countKey ((register w cid i .alloc lc).regsOf cid) i = 1
    rw [regsOf_register_self]
    exact countKey_mapSet _ _ _ hcount
  · rw [regsOf_registerInstance_self]
    exact mapGet_mapSet_self _ _ _
  · rw [regsOf_registerInstance_self]
    exact countKey_mapSet _ _ _ hcount

theorem C9_register_last_write_wins_witness :
    mapGet ((register wC9 0 (.str "x") (.const (.num 2)) .Singleton).regsOf 0) (.str "x") =
      some ⟨.prod (.const (.num 2)), .Singleton, .undef⟩ ∧
    countKey ((register wC9 0 (.str "x") (.const (.num 2)) .Singleton).regsOf 0) (.str "x") = 1 ∧
    mapGet ((registerInstance wC9 0 (.str "x") (.num 7)).regsOf 0) (.str "x") =
      some ⟨.prod (.const (.num 7)), .Singleton, .num 7⟩ := by
  have hmain := C9_register_last_write_wins wC9 0 (.str "x")
    ⟨.prod (.const (.num 1)), .Transient, .undef⟩ (.const (.num 2)) .Singleton (.num 7)
    rfl (by decide)
  exact ⟨hmain.1.1, hmain.1.2.1, hmain.2.2.1⟩

/-! ### C10 -/

/-- C10: Scoped caching is governed by key presence (`Map.has`), not by
the truthiness of the cached value: a Scoped producer returning a falsy
value (`undefined`, `null`, `0`, `''`, `false`) is invoked at most once
per scope lifetime — the first resolution caches the falsy value and
every later resolution returns it without touching the world again. -/
theorem C10_scoped_falsy_value_cached :
    ∀ (f g : Nat) (w : World) (cid : Nat) (i : ServiceIdentifier)
      (r : Registration) (v : JSVal),
      mapGet (w.regsOf cid) i = some r → r.lifecycle = .Scoped →
      r.factory = .prod (.const v) → v.truthy = false →
      mapHas (w.scopedOf cid) i = false →
      resolve (f + 1) w cid i =
        (cacheScoped { w with runs := w.runs + 1 } cid i v, .ok v) ∧
      (cacheScoped { w with runs := w.runs + 1 } cid i v).runs = w.runs + 1 ∧
      resolve (g + 1) (cacheScoped { w with runs := w.runs + 1 } cid i v) cid i =
        (cacheScoped { w with runs := w.runs + 1 } cid i v, .ok v) := by
  intro f g w cid i r v h hlc hfac _ hhas
  have h1 : resolve (f + 1) w cid i =
      (cacheScoped { w with runs := w.runs + 1 } cid i v, .ok v) := by
    rw [resolve_succ, resolveStep_scoped_run_ok _ h hlc hhas
      (by rw [hfac, runFactory_prod, evalProducer_const])]
  exact ⟨h1, rfl, scoped_resolve_stable h hlc hfac h1⟩

theorem C10_scoped_falsy_value_cached_witness :
    resolve 1 wC10 0 (.str "s") =
      (cacheScoped { wC10 with runs := wC10.runs + 1 } 0 (.str "s") .undef, .ok .undef) ∧
    resolve 1 (cacheScoped { wC10 with runs := wC10.runs + 1 } 0 (.str "s") .undef) 0 (.str "s") =
      (cacheScoped { wC10 with runs := wC10.runs + 1 } 0 (.str "s") .undef, .ok .undef) := by
  have hmain := C10_scoped_falsy_value_cached 0 0 wC10 0 (.str "s")
    ⟨.prod (.const .undef), .Scoped, .undef⟩ .undef rfl rfl rfl rfl rfl
  exact ⟨hmain.1, hmain.2.2⟩

/-! ### C4 -/

/-- A Scoped registration producing fresh objects. -/
def wC4 : World := register World.init 0 (.str "d") .alloc .Scoped

/-- C4: for a Scoped registration (i) two resolutions before any
`clearScope()` return the identical instance and the second changes
nothing; (ii) after `clearScope()` the next resolution runs the producer
again and — the producer allocating fresh objects — returns an instance
distinct from the pre-clear one; (iii) `clearScope()` leaves every
registration table unchanged. -/
theorem C4_scoped_cache_and_clearScope :
    (∀ (f g : Nat) (w w1 : World) (cid : Nat) (i : ServiceIdentifier)
        (r : Registration) (p : Producer) (v : JSVal),
        mapGet (w.regsOf cid) i = some r → r.lifecycle = .Scoped →
        r.factory = .prod p →
        resolve (f + 1) w cid i = (w1, .ok v) →
        resolve (g + 1) w1 cid i = (w1, .ok v)) ∧
    (∀ (f g : Nat) (w : World) (cid : Nat) (i : ServiceIdentifier) (r : Registration),
        mapGet (w.regsOf cid) i = some r → r.lifecycle = .Scoped →
        r.factory = .prod .alloc → mapHas (w.scopedOf cid) i = false →
        (resolve (f + 1) w cid i).2 = .ok (.obj w.allocNext) ∧
        (resolve (g + 1) (clearScope (resolve (f + 1) w cid i).1 cid) cid i).2 =
          .ok (.obj (w.allocNext + 1)) ∧
        JSVal.obj w.allocNext ≠ JSVal.obj (w.allocNext + 1)) ∧
    (∀ (w : World) (cid c : Nat), (clearScope w cid).regsOf c = w.regsOf c) := by
  refine ⟨?_, ?_, regsOf_clearScope⟩
  · intro f g w w1 cid i r p v h hlc hfac hres
    exact scoped_resolve_stable h hlc hfac hres
  · intro f g w cid i r h hlc hfac hhas
    have h1 : resolve (f + 1) w cid i =
        (cacheScoped { w with runs := w.runs + 1, allocNext := w.allocNext + 1 }
          cid i (.obj w.allocNext), .ok (.obj w.allocNext)) := by
      rw [resolve_succ, resolveStep_scoped_run_ok _ h hlc hhas
        (by rw [hfac, runFactory_prod, evalProducer_alloc])]
    have hfst : (resolve (f + 1) w cid i).1 =
        cacheScoped { w with runs := w.runs + 1, allocNext := w.allocNext + 1 }
          cid i (.obj w.allocNext) := congrArg Prod.fst h1
    refine ⟨congrArg Prod.snd h1, ?_, by simp⟩
    rw [hfst]
    have hreg2 : mapGet ((clearScope (cacheScoped
        { w with runs := w.runs + 1, allocNext := w.allocNext + 1 }
        cid i (.obj w.allocNext)) cid).regsOf cid) i = some r := by
      rw [regsOf_clearScope, regsOf_cacheScoped]
      exact h
    have hhas2 : mapHas ((clearScope (cacheScoped
        { w with runs := w.runs + 1, allocNext := w.allocNext + 1 }
        cid i (.obj w.allocNext)) cid).scopedOf cid) i = false := by
      rw [scopedOf_clearScope_self]
      rfl
    rw [resolve_succ, resolveStep_scoped_run_ok _ hreg2 hlc hhas2
      (by rw [hfac, runFactory_prod, evalProducer_alloc])]
    rfl

theorem C4_scoped_cache_and_clearScope_witness :
    (resolve 1 wC4 0 (.str "d")).2 = .ok (.obj wC4.allocNext) ∧
    resolve 1 (cacheScoped { wC4 with runs := wC4.runs + 1, allocNext := wC4.allocNext + 1 }
        0 (.str "d") (.obj wC4.allocNext)) 0 (.str "d") =
      (cacheScoped { wC4 with runs := wC4.runs + 1, allocNext := wC4.allocNext + 1 }
        0 (.str "d") (.obj wC4.allocNext), .ok (.obj wC4.allocNext)) ∧
    (resolve 1 (clearScope (resolve 1 wC4 0 (.str "d")).1 0) 0 (.str "d")).2 =
      .ok (.obj (wC4.allocNext + 1)) ∧
    (clearScope wC4 0).regsOf 0 = wC4.regsOf 0 :=
  ⟨(C4_scoped_cache_and_clearScope.2.1 0 0 wC4 0 (.str "d")
      ⟨.prod .alloc, .Scoped, .undef⟩ rfl rfl rfl rfl).1,
   C4_scoped_cache_and_clearScope.1 0 0 wC4
     (cacheScoped { wC4 with runs := wC4.runs + 1, allocNext := wC4.allocNext + 1 }
       0 (.str "d") (.obj wC4.allocNext)) 0 (.str "d")
     ⟨.prod .alloc, .Scoped, .undef⟩ .alloc (.obj wC4.allocNext) rfl rfl rfl rfl,
   (C4_scoped_cache_and_clearScope.2.1 0 0 wC4 0 (.str "d")
      ⟨.prod .alloc, .Scoped, .undef⟩ rfl rfl rfl rfl).2.1,
   C4_scoped_cache_and_clearScope.2.2 wC4 0 0⟩

/-! ### C6 -/

/-- A Scoped allocating registration from which two sibling scopes are derived. -/
def wC6 : World := register World.init 0 (.str "req") .alloc .Scoped

/-- C6: a Scoped identifier whose producer allocates a fresh value,
resolved from two sibling scopes `A = C.createScope()` and
`B = C.createScope()`, yields two distinct instances: each scope has its
own scoped-instance cache (starting empty), so each scope's first
resolution runs the producer afresh. -/
theorem C6_sibling_scopes_isolated :
    ∀ (f g : Nat) (w : World) (cid : Nat) (i : ServiceIdentifier) (r : Registration),
      mapGet (w.regsOf cid) i = some r → r.lifecycle = .Scoped →
      r.factory = .prod .alloc → cid < w.numContainers →
      (resolve (f + 1) (createScope (createScope w cid).2 cid).2
          (createScope w cid).1 i).2 = .ok (.obj w.allocNext) ∧
      (resolve (g + 1)
          (resolve (f + 1) (createScope (createScope w cid).2 cid).2
            (createScope w cid).1 i).1
          (createScope (createScope w cid).2 cid).1 i).2 =
        .ok (.obj (w.allocNext + 1)) ∧
      JSVal.obj w.allocNext ≠ JSVal.obj (w.allocNext + 1) := by
  intro f g w cid i r h hlc hfac hcid
  have hne : cid ≠ w.numContainers := Nat.ne_of_lt hcid
  -- the scope registration derived from r
  have hsr : scopeRegistration cid i r = ⟨.prod .alloc, .Scoped, .undef⟩ := by
    rw [scopeRegistration_scoped _ _ hlc, hfac]
  -- scope A's container inside B's world
  have hBA : (createScope (createScope w cid).2 cid).2.containerAt w.numContainers =
      ⟨(w.regsOf cid).map (fun kv => (kv.1, scopeRegistration cid kv.1 kv.2)), []⟩ := by
    have hx : w.numContainers ≠ (createScope w cid).2.numContainers := by
      rw [createScope_numContainers]
      omega
    rw [createScope_containerAt_old _ _ hx, createScope_containerAt_new]
  -- scope B's container inside B's world
  have hBB : (createScope (createScope w cid).2 cid).2.containerAt
      ((createScope w cid).2.numContainers) =
      ⟨((createScope w cid).2.regsOf cid).map
        (fun kv => (kv.1, scopeRegistration cid kv.1 kv.2)), []⟩ :=
    createScope_containerAt_new _ _
  have hAreg : (createScope w cid).2.regsOf cid = w.regsOf cid := by
    unfold World.regsOf
    rw [createScope_containerAt_old _ _ hne]
  -- registration lookup in scope A
  have hregA : mapGet ((createScope (createScope w cid).2 cid).2.regsOf
      (createScope w cid).1) i = some (⟨.prod .alloc, .Scoped, .undef⟩ : Registration) := by
    unfold World.regsOf
    rw [createScope_fst, hBA]
    show mapGet ((w.regsOf cid).map (fun kv => (kv.1, scopeRegistration cid kv.1 kv.2))) i = _
    rw [mapGet_map_keyed, h]
    simp [hsr]
  have hscA : mapHas ((createScope (createScope w cid).2 cid).2.scopedOf
      (createScope w cid).1) i = false := by
    unfold World.scopedOf
    rw [createScope_fst, hBA]
    rfl
  -- first resolution (scope A)
  have h1 : resolve (f + 1) (createScope (createScope w cid).2 cid).2
      (createScope w cid).1 i =
      (cacheScoped { (createScope (createScope w cid).2 cid).2 with
          runs := (createScope (createScope w cid).2 cid).2.runs + 1,
          allocNext := (createScope (createScope w cid).2 cid).2.allocNext + 1 }
        (createScope w cid).1 i (.obj w.allocNext), .ok (.obj w.allocNext)) := by
    rw [resolve_succ, resolveStep_scoped_run_ok _ hregA rfl hscA
      (evalProducer_alloc (createScope (createScope w cid).2 cid).2)]
    rfl
  have hfst : (resolve (f + 1) (createScope (createScope w cid).2 cid).2
      (createScope w cid).1 i).1 =
      cacheScoped { (createScope (createScope w cid).2 cid).2 with
          runs := (createScope (createScope w cid).2 cid).2.runs + 1,
          allocNext := (createScope (createScope w cid).2 cid).2.allocNext + 1 }
        (createScope w cid).1 i (.obj w.allocNext) := congrArg Prod.fst h1
  refine ⟨congrArg Prod.snd h1, ?_, by simp⟩
  rw [hfst]
  -- registration lookup in scope B, after A's resolution
  have hAne : (createScope (createScope w cid).2 cid).1 ≠ (createScope w cid).1 := by
    rw [createScope_fst, createScope_fst, createScope_numContainers]
    omega
  have hregB : mapGet ((cacheScoped { (createScope (createScope w cid).2 cid).2 with
      runs := (createScope (createScope w cid).2 cid).2.runs + 1,
      allocNext := (createScope (createScope w cid).2 cid).2.allocNext + 1 }
      (createScope w cid).1 i (.obj w.allocNext)).regsOf
      (createScope (createScope w cid).2 cid).1) i =
      some (⟨.prod .alloc, .Scoped, .undef⟩ : Registration) := by
    unfold World.regsOf
    rw [containerAt_cacheScoped_ne _ _ _ hAne]
    show mapGet (((createScope (createScope w cid).2 cid).2.containerAt
      ((createScope w cid).2.numContainers)).registrations) i = _
    rw [hBB]
    show mapGet (((createScope w cid).2.regsOf cid).map
      (fun kv => (kv.1, scopeRegistration cid kv.1 kv.2))) i = _
    rw [mapGet_map_keyed, hAreg, h]
    simp [hsr]
  have hscB : mapHas ((cacheScoped { (createScope (createScope w cid).2 cid).2 with
      runs := (createScope (createScope w cid).2 cid).2.runs + 1,
      allocNext := (createScope (createScope w cid).2 cid).2.allocNext + 1 }
      (createScope w cid).1 i (.obj w.allocNext)).scopedOf
      (createScope (createScope w cid).2 cid).1) i = false := by
    unfold World.scopedOf
    rw [containerAt_cacheScoped_ne _ _ _ hAne]
    show mapHas (((createScope (createScope w cid).2 cid).2.containerAt
      ((createScope w cid).2.numContainers)).scopedInstances) i = false
    rw [hBB]
    rfl
  rw [resolve_succ, resolveStep_scoped_run_ok _ hregB rfl hscB
    (evalProducer_alloc _)]
  rfl

theorem C6_sibling_scopes_isolated_witness :
    (resolve 1 (createScope (createScope wC6 0).2 0).2 (createScope wC6 0).1
      (.str "req")).2 = .ok (.obj wC6.allocNext) ∧
    (resolve 1 (resolve 1 (createScope (createScope wC6 0).2 0).2 (createScope wC6 0).1
        (.str "req")).1
      (createScope (createScope wC6 0).2 0).1 (.str "req")).2 =
      .ok (.obj (wC6.allocNext + 1)) := by
  have hm := C6_sibling_scopes_isolated 0 0 wC6 0 (.str "req")
    ⟨.prod .alloc, .Scoped, .undef⟩ rfl rfl rfl (by decide)
  exact ⟨hm.1, hm.2.1⟩

/-! ### C5 -/

/-- A Singleton allocating registration from which a scope is derived. -/
def wC5 : World := register World.init 0 (.str "sg") .alloc .Singleton

/-- C5: deriving a scope `S = C.createScope()` from a container holding a
Singleton registration (i) gives `S` an empty scoped-instance cache,
(ii) leaves the parent container `C` completely untouched, and resolving
the Singleton from `S` and from `C` — in either order — returns the same
instance ((iii) parent first, (iv) scope first): the scope's delegating
entry shares the parent's singleton. -/
theorem C5_singleton_shared_across_scope :
    ∀ (w : World) (cid : Nat) (i : ServiceIdentifier) (r : Registration) (p : Producer),
      mapGet (w.regsOf cid) i = some r → r.lifecycle = .Singleton →
      r.factory = .prod p → cid < w.numContainers →
      (createScope w cid).2.scopedOf (createScope w cid).1 = [] ∧
      (createScope w cid).2.containerAt cid = w.containerAt cid ∧
      (∀ (f g : Nat) (w2 w3 : World) (a b : JSVal),
        resolve (f + 1) (createScope w cid).2 cid i = (w2, .ok a) →
        resolve (g + 2) w2 (createScope w cid).1 i = (w3, .ok b) → b = a) ∧
      (∀ (f g : Nat) (w2 w3 : World) (a b : JSVal),
        resolve (f + 2) (createScope w cid).2 (createScope w cid).1 i = (w2, .ok b) →
        resolve (g + 1) w2 cid i = (w3, .ok a) → a = b) := by
  intro w cid i r p h hlc hfac hcid
  have hne : cid ≠ w.numContainers := Nat.ne_of_lt hcid
  have hSne : (createScope w cid).1 ≠ cid := by
    rw [createScope_fst]
    exact fun hx => hne hx.symm
  have hii : (createScope w cid).2.containerAt cid = w.containerAt cid :=
    createScope_containerAt_old _ _ hne
  -- parent registration, seen from the derived world
  have hPreg : mapGet ((createScope w cid).2.regsOf cid) i = some r := by
    unfold World.regsOf
    rw [hii]
    exact h
  -- the scope's delegating registration
  have hSreg : mapGet ((createScope w cid).2.regsOf (createScope w cid).1) i =
      some (⟨.delegate cid i, .Singleton, r.instance_⟩ : Registration) := by
    unfold World.regsOf
    rw [createScope_fst, createScope_containerAt_new]
    show mapGet ((w.regsOf cid).map (fun kv => (kv.1, scopeRegistration cid kv.1 kv.2))) i = _
    rw [mapGet_map_keyed, h]
    simp [scopeRegistration_singleton _ _ hlc]
  refine ⟨?_, hii, ?_, ?_⟩
  · rw [createScope_fst]
    exact createScope_scopedOf_new w cid
  · -- (iii) parent first, then scope
    intro f g w2 w3 a b hres1 hres2
    -- the parent resolution does not touch the scope's container
    have hS2 : mapGet (w2.regsOf (createScope w cid).1) i =
        some (⟨.delegate cid i, .Singleton, r.instance_⟩ : Registration) := by
      have hc : (resolve (f + 1) (createScope w cid).2 cid i).1.containerAt
          (createScope w cid).1 = (createScope w cid).2.containerAt (createScope w cid).1 :=
        resolve_prod_containerAt hPreg hfac hSne
      rw [hres1] at hc
      unfold World.regsOf
      rw [hc]
      exact hSreg
    obtain ⟨r1, hr1get, hr1lc, hr1fac, hr1inst, hr1p⟩ :=
      singleton_post_state hPreg hlc hfac hres1
    by_cases ht : r.instance_.truthy = true
    · -- the cached parent instance was already truthy: both sides return it
      have hp1 : resolve (f + 1) (createScope w cid).2 cid i =
          ((createScope w cid).2, .ok r.instance_) := by
        rw [resolve_succ, resolveStep_singleton_truthy _ hPreg hlc ht]
      have hw2 : w2 = (createScope w cid).2 := by
        rw [hp1] at hres1
        exact (congrArg Prod.fst hres1).symm
      have ha : a = r.instance_ := by
        rw [hp1] at hres1
        have := congrArg Prod.snd hres1
        simpa using this.symm
      have hs1 : resolve (g + 2) w2 (createScope w cid).1 i = (w2, .ok r.instance_) := by
        rw [resolve_succ, resolveStep_singleton_truthy _ hS2 rfl ht]
      rw [hs1] at hres2
      have hb := congrArg Prod.snd hres2
      simp only at hb
      rw [ha]
      exact (Except.ok.inj hb).symm
    · -- slot untruthy: the scope's entry delegates back to the parent
      have ht' : r.instance_.truthy = false := by
        revert ht
        cases r.instance_.truthy <;> simp
      obtain ⟨w', hw'⟩ := singleton_resolve_from_state (g := g) hr1get hr1lc hr1fac hr1inst hr1p
      have hdel : runFactory (resolve (g + 1)) w2
          (FactoryCode.delegate cid i) = (w', .ok a) := by
        rw [runFactory_delegate]
        exact hw'
      have hs1 : resolve (g + 2) w2 (createScope w cid).1 i =
          (cacheSingleton w' (createScope w cid).1 i
            ⟨.delegate cid i, .Singleton, r.instance_⟩ a, .ok a) := by
        rw [resolve_succ]
        exact resolveStep_singleton_run_ok _ hS2 rfl ht' hdel
      rw [hs1] at hres2
      have hb := congrArg Prod.snd hres2
      simp only at hb
      exact (Except.ok.inj hb).symm
  · -- (iv) scope first, then parent
    intro f g w2 w3 a b hres1 hres2
    by_cases ht : r.instance_.truthy = true
    · -- the copied slot is already truthy on both sides
      have hs1 : resolve (f + 2) (createScope w cid).2 (createScope w cid).1 i =
          ((createScope w cid).2, .ok r.instance_) := by
        rw [resolve_succ, resolveStep_singleton_truthy _ hSreg rfl ht]
      have hw2 : w2 = (createScope w cid).2 := by
        rw [hs1] at hres1
        exact (congrArg Prod.fst hres1).symm
      have hb : b = r.instance_ := by
        rw [hs1] at hres1
        have := congrArg Prod.snd hres1
        simpa using this.symm
      have hp1 : resolve (g + 1) w2 cid i = (w2, .ok r.instance_) := by
        rw [resolve_succ]
        refine resolveStep_singleton_truthy _ ?_ hlc ht
        rw [hw2]
        exact hPreg
      rw [hp1] at hres2
      have ha := congrArg Prod.snd hres2
      simp only at ha
      rw [hb]
      exact (Except.ok.inj ha).symm
    · -- slot untruthy: the scope's first resolution delegates to the parent
      have ht' : r.instance_.truthy = false := by
        revert ht
        cases r.instance_.truthy <;> simp
      rcases hnest : resolve (f + 1) (createScope w cid).2 cid i with ⟨wm, res⟩
      cases res with
      | error e =>
          have : resolve (f + 2) (createScope w cid).2 (createScope w cid).1 i =
              (wm, .error e) := by
            rw [resolve_succ]
            refine resolveStep_singleton_run_err _ hSreg rfl ht' ?_
            rw [runFactory_delegate]
            exact hnest
          rw [this] at hres1
          exact absurd (congrArg Prod.snd hres1) (by simp)
      | ok vm =>
          have hs1 : resolve (f + 2) (createScope w cid).2 (createScope w cid).1 i =
              (cacheSingleton wm (createScope w cid).1 i
                ⟨.delegate cid i, .Singleton, r.instance_⟩ vm, .ok vm) := by
            rw [resolve_succ]
            refine resolveStep_singleton_run_ok _ hSreg rfl ht' ?_
            rw [runFactory_delegate]
            exact hnest
          rw [hs1] at hres1
          have hw2 : cacheSingleton wm (createScope w cid).1 i
              ⟨.delegate cid i, .Singleton, r.instance_⟩ vm = w2 :=
            congrArg Prod.fst hres1
          have hb : vm = b := by
            have := congrArg Prod.snd hres1
            simpa using this
          obtain ⟨r1, hr1get, hr1lc, hr1fac, hr1inst, hr1p⟩ :=
            singleton_post_state hPreg hlc hfac hnest
          -- the scope's cache write does not touch the parent's container
          have hr1get2 : mapGet (w2.regsOf cid) i = some r1 := by
            rw [← hw2, regsOf_cacheSingleton_ne _ _ _ _ (fun hx => hSne hx.symm)]
            exact hr1get
          obtain ⟨w', hw'⟩ :=
            singleton_resolve_from_state (g := g) hr1get2 hr1lc hr1fac hr1inst hr1p
          rw [hw'] at hres2
          have ha := congrArg Prod.snd hres2
          simp only at ha
          rw [← hb]
          exact (Except.ok.inj ha).symm

theorem C5_singleton_shared_across_scope_witness :
    (createScope wC5 0).2.scopedOf 1 = [] ∧
    (createScope wC5 0).2.containerAt 0 = wC5.containerAt 0 ∧
    JSVal.obj 0 = JSVal.obj 0 := by
  have hm := C5_singleton_shared_across_scope wC5 0 (.str "sg")
    ⟨.prod .alloc, .Singleton, .undef⟩ .alloc rfl rfl rfl (by decide)
  refine ⟨hm.1, hm.2.1, ?_⟩
  exact hm.2.2.1 0 0
    (resolve 1 (createScope wC5 0).2 0 (.str "sg")).1
    (resolve 2 (resolve 1 (createScope wC5 0).2 0 (.str "sg")).1 1 (.str "sg")).1
    (.obj 0) (.obj 0) rfl rfl

/-! ### C8 -/

/-- Running a factory (a plain producer, or a delegation into another
container's `resolve`) can only add scoped-cache entries for identifiers
whose registration — in the container whose cache gains the entry — was
Scoped beforehand. -/
theorem runFactory_scoped_mono (fuel : Nat)
    (ih : ∀ (w : World) (cid : Nat) (i : ServiceIdentifier)
      (c : Nat) (j : ServiceIdentifier) (v : JSVal),
      mapGet ((resolve fuel w cid i).1.scopedOf c) j = some v →
      mapGet (w.scopedOf c) j = some v ∨
        ∃ r, mapGet (w.regsOf c) j = some r ∧ r.lifecycle = .Scoped)
    (w : World) (fc : FactoryCode) (c : Nat) (j : ServiceIdentifier) (v : JSVal)
    (hget : mapGet ((runFactory (resolve fuel) w fc).1.scopedOf c) j = some v) :
    mapGet (w.scopedOf c) j = some v ∨
      ∃ r, mapGet (w.regsOf c) j = some r ∧ r.lifecycle = .Scoped := by
  cases fc with
  | prod p =>
      rw [runFactory_prod,
        scopedOf_eq_of_containers (evalProducer_containers p w).1 c] at hget
      exact Or.inl hget
  | delegate pc pi =>
      rw [runFactory_delegate] at hget
      exact ih w pc pi c j v hget

/-- `resolve` can only add scoped-cache entries for identifiers whose
registration was Scoped (in the container gaining the entry) before the
call. -/
theorem resolve_scoped_mono :
    ∀ (fuel : Nat) (w : World) (cid : Nat) (i : ServiceIdentifier)
      (c : Nat) (j : ServiceIdentifier) (v : JSVal),
      mapGet ((resolve fuel w cid i).1.scopedOf c) j = some v →
      mapGet (w.scopedOf c) j = some v ∨
        ∃ r, mapGet (w.regsOf c) j = some r ∧ r.lifecycle = .Scoped := by
  intro fuel
  induction fuel with
  | zero =>
      intro w cid i c j v hget
      exact Or.inl hget
  | succ fuel ih =>
      intro w cid i c j v hget
      rw [resolve_succ] at hget
      rcases hreg : mapGet (w.regsOf cid) i with _ | r
      · rw [resolveStep_none _ hreg] at hget
        exact Or.inl hget
      · rcases hlc : r.lifecycle with _ | _ | _
        · -- Transient: the result is the factory invocation itself
          rw [resolveStep_transient _ hreg hlc] at hget
          exact runFactory_scoped_mono fuel ih w r.factory c j v hget
        · -- Singleton
          by_cases ht : r.instance_.truthy = true
          · rw [resolveStep_singleton_truthy _ hreg hlc ht] at hget
            exact Or.inl hget
          · have ht' : r.instance_.truthy = false := by
              revert ht
              cases r.instance_.truthy <;> simp
            rcases hrf : runFactory (resolve fuel) w r.factory with ⟨w1, res⟩
            have hw1 : (runFactory (resolve fuel) w r.factory).1 = w1 := by
              rw [hrf]
            cases res with
            | error e =>
                rw [resolveStep_singleton_run_err _ hreg hlc ht' hrf] at hget
                refine runFactory_scoped_mono fuel ih w r.factory c j v ?_
                rw [hw1]
                exact hget
            | ok vv =>
                rw [resolveStep_singleton_run_ok _ hreg hlc ht' hrf,
                  scopedOf_cacheSingleton] at hget
                refine runFactory_scoped_mono fuel ih w r.factory c j v ?_
                rw [hw1]
                exact hget
        · -- Scoped
          by_cases hhas : mapHas (w.scopedOf cid) i = true
          · rw [resolveStep_scoped_cached _ hreg hlc hhas] at hget
            exact Or.inl hget
          · have hhas' : mapHas (w.scopedOf cid) i = false := by
              revert hhas
              cases mapHas (w.scopedOf cid) i <;> simp
            rcases hrf : runFactory (resolve fuel) w r.factory with ⟨w1, res⟩
            have hw1 : (runFactory (resolve fuel) w r.factory).1 = w1 := by
              rw [hrf]
            cases res with
            | error e =>
                rw [resolveStep_scoped_run_err _ hreg hlc hhas' hrf] at hget
                refine runFactory_scoped_mono fuel ih w r.factory c j v ?_
                rw [hw1]
                exact hget
            | ok vv =>
                rw [resolveStep_scoped_run_ok _ hreg hlc hhas' hrf] at hget
                by_cases hc : c = cid
                · subst hc
                  rw [scopedOf_cacheScoped_self] at hget
                  by_cases hj : j = i
                  · subst hj
                    exact Or.inr ⟨r, hreg, hlc⟩
                  · rw [mapGet_mapSet_ne _ _ hj] at hget
                    refine runFactory_scoped_mono fuel ih w r.factory c j v ?_
                    rw [hw1]
                    exact hget
                · rw [scopedOf_cacheScoped_ne _ _ _ hc] at hget
                  refine runFactory_scoped_mono fuel ih w r.factory c j v ?_
                  rw [hw1]
                  exact hget

/-- A minimal world on which the C8 invariant is exercised. -/
def wC8 : World := register World.init 0 (.str "sc") (.const (.num 5)) .Scoped

/-- C8: the scoped-instance cache only ever holds entries for
identifiers whose registration lifecycle was Scoped at the time of
caching — every container operation preserves this: any entry present
after an operation either was present before it, or belongs to an
identifier registered Scoped (in that same container) when the
operation started.  Moreover a direct (plain-producer) Transient or
Singleton resolution adds nothing to any scoped-instance cache. -/
theorem C8_scoped_cache_only_scoped_entries :
    (∀ (w : World) (op : Op) (c : Nat) (j : ServiceIdentifier) (v : JSVal),
        mapGet ((step w op).scopedOf c) j = some v →
        mapGet (w.scopedOf c) j = some v ∨
          ∃ r, mapGet (w.regsOf c) j = some r ∧ r.lifecycle = .Scoped) ∧
    (∀ (fuel : Nat) (w : World) (cid : Nat) (i : ServiceIdentifier)
        (r : Registration) (p : Producer),
        mapGet (w.regsOf cid) i = some r → r.factory = .prod p →
        r.lifecycle ≠ .Scoped →
        ∀ c, (resolve fuel w cid i).1.scopedOf c = w.scopedOf c) := by
  constructor
  · intro w op c j v hget
    cases op with
    | register cid i p lc =>
        rw [show (step w (.register cid i p lc)).scopedOf c = w.scopedOf c from
          scopedOf_register w cid i p lc c] at hget
        exact Or.inl hget
    | registerClass cid i lc =>
        rw [show (step w (.registerClass cid i lc)).scopedOf c = w.scopedOf c from
          scopedOf_register w cid i .alloc lc c] at hget
        exact Or.inl hget
    | registerInstance cid i vv =>
        rw [show (step w (.registerInstance cid i vv)).scopedOf c = w.scopedOf c from
          scopedOf_registerInstance w cid i vv c] at hget
        exact Or.inl hget
    | resolve fuel cid i =>
        exact resolve_scoped_mono fuel w cid i c j v hget
    | createScope cid =>
        by_cases hc : c = w.numContainers
        · subst hc
          rw [show (step w (.createScope cid)).scopedOf w.numContainers = [] from
            createScope_scopedOf_new w cid] at hget
          exact absurd hget (by simp [mapGet])
        · have : (createScope w cid).2.scopedOf c = w.scopedOf c := by
            unfold World.scopedOf
            rw [createScope_containerAt_old _ _ hc]
          rw [show (step w (.createScope cid)).scopedOf c = w.scopedOf c from this] at hget
          exact Or.inl hget
    | clearScope cid =>
        by_cases hc : c = cid
        · subst hc
          rw [show (step w (.clearScope c)).scopedOf c = [] from
            scopedOf_clearScope_self w c] at hget
          exact absurd hget (by simp [mapGet])
        · rw [show (step w (.clearScope cid)).scopedOf c = w.scopedOf c from
            scopedOf_clearScope_ne w hc] at hget
          exact Or.inl hget
    | clear cid =>
        by_cases hc : c = cid
        · subst hc
          rw [show (step w (.clear c)).scopedOf c = [] from by
            rw [show (step w (.clear c)).scopedOf c = if c = c then [] else w.scopedOf c from
              scopedOf_clear w c c]
            simp] at hget
          exact absurd hget (by simp [mapGet])
        · rw [show (step w (.clear cid)).scopedOf c = w.scopedOf c from by
            rw [show (step w (.clear cid)).scopedOf c =
              if c = cid then [] else w.scopedOf c from scopedOf_clear w cid c]
            simp [hc]] at hget
          exact Or.inl hget
  · intro fuel w cid i r p h hfac hlcne c
    cases fuel with
    | zero => rfl
    | succ fuel =>
        rcases hlc : r.lifecycle with _ | _ | _
        · rw [resolve_succ, resolveStep_transient _ h hlc, hfac, runFactory_prod]
          exact scopedOf_eq_of_containers (evalProducer_containers p w).1 c
        · by_cases ht : r.instance_.truthy = true
          · rw [resolve_succ, resolveStep_singleton_truthy _ h hlc ht]
          · have ht' : r.instance_.truthy = false := by
              revert ht
              cases r.instance_.truthy <;> simp
            cases p with
            | const cv =>
                rw [resolve_succ, resolveStep_singleton_run_ok _ h hlc ht'
                  (by rw [hfac, runFactory_prod, evalProducer_const]),
                  scopedOf_cacheSingleton]
                rfl
            | alloc =>
                rw [resolve_succ, resolveStep_singleton_run_ok _ h hlc ht'
                  (by rw [hfac, runFactory_prod, evalProducer_alloc]),
                  scopedOf_cacheSingleton]
                rfl
            | throwE e =>
                rw [resolve_succ, resolveStep_singleton_run_err _ h hlc ht'
                  (by rw [hfac, runFactory_prod, evalProducer_throwE])]
                rfl
        · exact absurd hlc hlcne

theorem C8_scoped_cache_only_scoped_entries_witness :
    (mapGet (wC8.scopedOf 0) (.str "sc") = some (.num 5) ∨
      ∃ r, mapGet (wC8.regsOf 0) (.str "sc") = some r ∧ r.lifecycle = .Scoped) ∧
    (resolve 1 wC7 0 (.str "t")).1.scopedOf 0 = wC7.scopedOf 0 :=
  ⟨C8_scoped_cache_only_scoped_entries.1 wC8 (.resolve 1 0 (.str "sc")) 0
     (.str "sc") (.num 5) rfl,
   C8_scoped_cache_only_scoped_entries.2 1 wC7 0 (.str "t")
     ⟨.prod .alloc, .Transient, .undef⟩ .alloc rfl rfl (by decide) 0⟩

end ElysiaDI
